import Mathlib

/-!
Shallow embedding of `src/zhuanhuan_optimized.py` (class `XMLtoYOLOConverter`).

The Python program converts XML corner-format bounding boxes into normalized
YOLO center-format text lines.  We embed it over exact rationals:

* an XML annotation file is modelled by `Annotation` (an optional size record
  and a list of object records), with `Option` capturing a missing sub-record
  or an unparsable numeric field;
* `convert_coordinates` is a direct transcription of the arithmetic in
  `XMLtoYOLOConverter.convert_coordinates` (lines 38-66);
* the per-object body of the loop in `convert_annotation` (lines 98-132) is
  the step function `objStep`, whose result is `skip` (Python `continue`),
  `abort` (an uncaught exception that falls to the outer `except` at line
  136: a missing `name` tag, or `ZeroDivisionError` from a zero dimension),
  or `emit line` (the `out_file.write` at line 132);
* `processObjects` runs the loop, returning the success flag and the lines
  written before any abort; `convert_annotation` adds the size handling and
  the output file (which the Python opens with mode `w` *before* reading the
  size record, so the file exists whenever the XML itself parsed);
* `convert_all` (lines 140-163) is the batch driver.

Python's `f'{a:.6f}'` formatting is idealized over `ℚ` as rounding
`a * 10^6` to the nearest integer (ties to even) and printing six fractional
digits.
-/

/-- Size record of an annotation: the `width`/`height` children of the `size`
tag, `none` when the child is missing or its text does not parse as an
integer (either way line 94-95 raises and the file fails). -/
structure SizeRec where
  width : Option ℤ
  height : Option ℤ
deriving DecidableEq

/-- Bounding-box record: the four corner children of `bndbox`; a corner is
`none` when the tag is missing or its text does not parse as a float (both
are caught by the inner `try` at lines 118-125 and skip the object). -/
structure BndBox where
  xmin : Option ℚ
  xmax : Option ℚ
  ymin : Option ℚ
  ymax : Option ℚ
deriving DecidableEq

/-- Object record: optional `difficult` flag (already parsed as an integer),
optional `name` tag and optional `bndbox` sub-record. -/
structure XmlObject where
  difficult : Option ℤ
  name : Option String
  bndbox : Option BndBox
deriving DecidableEq

/-- An annotation file that parsed as well-formed XML: optional `size`
record and the list of `object` records (`root.iter` order). -/
structure Annotation where
  size : Option SizeRec
  objects : List XmlObject
deriving DecidableEq

/-- Transcription of `XMLtoYOLOConverter.convert_coordinates` (lines 49-66):
`dw = 1/w`, `dh = 1/h`, center coordinates and width/height, each then
normalized.  The box argument is `(xmin, xmax, ymin, ymax)` exactly as in the
Python.  (Rational division is total; the caller `objStep` models Python's
`ZeroDivisionError` explicitly and never relies on `1/0 = 0`.) -/
def convert_coordinates (image_size : ℤ × ℤ) (box : ℚ × ℚ × ℚ × ℚ) : ℚ × ℚ × ℚ × ℚ :=
  let dw : ℚ := 1 / (image_size.1 : ℚ)
  let dh : ℚ := 1 / (image_size.2 : ℚ)
  let x := (box.1 + box.2.1) / 2
  let y := (box.2.2.1 + box.2.2.2) / 2
  let w := box.2.1 - box.1
  let h := box.2.2.2 - box.2.2.1
  (x * dw, y * dh, w * dw, h * dh)

/-- Floor of a rational (numerator divided by denominator with Euclidean
integer division; the denominator is positive). -/
def ratFloor (q : ℚ) : ℤ := q.num / (q.den : ℤ)

/-- Round a rational to the nearest integer, ties to even. -/
def roundHalfEven (q : ℚ) : ℤ :=
  let n := ratFloor q
  let f := q - (n : ℚ)
  if f < 1 / 2 then n
  else if 1 / 2 < f then n + 1
  else if n % 2 = 0 then n else n + 1

/-- Print a natural number as six digits, zero-padded on the left. -/
def padFrac (n : ℕ) : String :=
  let s := toString n
  String.mk (List.replicate (6 - s.length) '0') ++ s

/-- Idealized model of Python `f'{a:.6f}'` over exact rationals: round
`a * 10^6` to the nearest integer (ties to even) and print it with six
fractional digits. -/
def fmt6 (q : ℚ) : String :=
  let m := roundHalfEven (q * 1000000)
  let sign := if m < 0 then "-" else ""
  let n := m.natAbs
  sign ++ toString (n / 1000000) ++ "." ++ padFrac (n % 1000000)

/-- Outcome of one iteration of the object loop. -/
inductive ObjStep where
  | skip : ObjStep
  | abort : ObjStep
  | emit : String → ObjStep
deriving DecidableEq

/-- Body of the `for obj in root.iter('object')` loop (lines 98-132) for one
object.  `skip` is a `continue`; `abort` is an exception that escapes to the
outer `except` (line 136): `obj.find('name')` being absent (so `.text` raises
`AttributeError` at line 105), or `ZeroDivisionError` inside
`convert_coordinates` when a dimension is zero; `emit` carries the exact
string written at line 132, where the Python joins the four 6-decimal values
with single spaces. -/
def objStep (classes : List String) (w h : ℤ) (o : XmlObject) : ObjStep :=
  if o.difficult = some 1 then ObjStep.skip
  else
    match o.name with
    | none => ObjStep.abort
    | some cls =>
      if classes.contains cls then
        match o.bndbox with
        | none => ObjStep.skip
        | some bb =>
          match bb.xmin, bb.xmax, bb.ymin, bb.ymax with
          | some xmin, some xmax, some ymin, some ymax =>
            if w = 0 ∨ h = 0 then ObjStep.abort
            else
              let cls_id := classes.indexOf cls
              let bbn := convert_coordinates (w, h) (xmin, xmax, ymin, ymax)
              ObjStep.emit (toString cls_id ++ " " ++
                String.intercalate " "
                  (List.map fmt6 [bbn.1, bbn.2.1, bbn.2.2.1, bbn.2.2.2]) ++ "\n")
          | _, _, _, _ => ObjStep.skip
      else ObjStep.skip

/-- The object loop: successive `objStep`s.  Returns the success flag (does
the loop finish without an exception?) together with the list of lines
written to the output file: on an abort, the lines already written by earlier
iterations persist, later objects are never reached. -/
def processObjects (classes : List String) (w h : ℤ) : List XmlObject → Bool × List String
  | [] => (true, [])
  | o :: rest =>
    match objStep classes w h o with
    | ObjStep.skip => processObjects classes w h rest
    | ObjStep.abort => (false, [])
    | ObjStep.emit line =>
      ((processObjects classes w h rest).1, line :: (processObjects classes w h rest).2)

/-- Transcription of `XMLtoYOLOConverter.convert_annotation` (lines 68-138).
The input is the XML file's base name paired with `none` when `ET.parse`
raises (line 83, before the output file is opened) or `some` of the parsed
annotation.  The result pairs the returned boolean with the output file:
`none` when no file was created, `some (name, lines)` when the file
`<stem>.txt` was created holding exactly `lines` (the Python opens it with
mode `w` at line 87 before reading the size record, so it exists — possibly
empty — whenever parsing succeeded). -/
def convert_annotation (classes : List String) (xmlFile : String × Option Annotation) :
    Bool × Option (String × List String) :=
  let file_name := xmlFile.1.dropRight 4
  match xmlFile.2 with
  | none => (false, none)
  | some root =>
    let output_file := file_name ++ ".txt"
    match root.size with
    | none => (false, some (output_file, []))
    | some size =>
      match size.width, size.height with
      | some width, some height =>
        let r := processObjects classes width height root.objects
        (r.1, some (output_file, r.2))
      | _, _ => (false, some (output_file, []))

/-- Transcription of `XMLtoYOLOConverter.convert_all` (lines 140-163): if the
glob found no XML files return `(0, 0)` at once, otherwise run
`convert_annotation` on each file in order, counting successes, and return
`(success_count, total_files)`. -/
def convert_all (classes : List String) (xml_files : List (String × Option Annotation)) : ℕ × ℕ :=
  let total_files := xml_files.length
  if total_files = 0 then (0, 0)
  else
    let success_count := xml_files.foldl
      (fun acc f => if ( convert_annotation classes f).1 then acc + 1 else acc) 0
    (success_count, total_files)

/-- The output files created by a batch run: one per input file for which
`convert_annotation` created an output file. -/
def convert_all_outputs (classes : List String) (xml_files : List (String × Option Annotation)) :
    List (String × List String) :=
  xml_files.filterMap (fun f => ( convert_annotation classes f).2)

/-- Stated from the spec's words, for comparison with the line built inside
`objStep`: "the class identifier (equal to the index of the object's class
name in the ordered ClassList), followed by the four transformed values each
formatted to 6 decimal places, space-separated and newline-terminated". -/
def specEmittedLine (classes : List String) (cls : String) (bbn : ℚ × ℚ × ℚ × ℚ) : String :=
  toString (classes.indexOf cls) ++ " " ++ fmt6 bbn.1 ++ " " ++ fmt6 bbn.2.1 ++ " " ++
    fmt6 bbn.2.2.1 ++ " " ++ fmt6 bbn.2.2.2 ++ "\n"

/-- Does this object reach the call to `convert_coordinates`?  (Not difficult,
known class name, bounding box present with all four corners numeric.) -/
def reachesTransform (classes : List String) (o : XmlObject) : Bool :=
  !(o.difficult == some 1) &&
    (match o.name with
     | none => false
     | some cls =>
       classes.contains cls &&
         (match o.bndbox with
          | none => false
          | some bb => bb.xmin.isSome && bb.xmax.isSome && bb.ymin.isSome && bb.ymax.isSome))

/-! ### Helper lemmas about the object-loop step -/

/-- A difficult object is skipped (line 101). -/
theorem objStep_of_difficult (classes : List String) (w h : ℤ) (o : XmlObject)
    (hd : o.difficult = some 1) : objStep classes w h o = ObjStep.skip := by
  simp [objStep, hd]

/-- A missing `name` tag raises `AttributeError` (line 105), aborting the file. -/
theorem objStep_of_noname (classes : List String) (w h : ℤ) (o : XmlObject)
    (hd : o.difficult ≠ some 1) (hn : o.name = none) :
    objStep classes w h o = ObjStep.abort := by
  simp [objStep, hd, hn]

/-- An object whose class is not in the class list is skipped (lines 106-108). -/
theorem objStep_of_unknown_class (classes : List String) (w h : ℤ) (o : XmlObject) (cls : String)
    (hn : o.name = some cls) (hc : classes.contains cls = false) :
    objStep classes w h o = ObjStep.skip := by
  have hc' : cls ∉ classes := by simpa using hc
  by_cases hd : o.difficult = some 1
  · simp [objStep, hd]
  · simp [objStep, hd, hn, hc']

/-- An object with no `bndbox` sub-record is skipped (lines 113-115). -/
theorem objStep_of_nobox (classes : List String) (w h : ℤ) (o : XmlObject) (cls : String)
    (hn : o.name = some cls) (hb : o.bndbox = none) :
    objStep classes w h o = ObjStep.skip := by
  by_cases hd : o.difficult = some 1
  · simp [objStep, hd]
  · by_cases hc : cls ∈ classes
    · simp [objStep, hd, hn, hc, hb]
    · simp [objStep, hd, hn, hc]

/-- An object with a missing (or non-numeric) corner is skipped (lines 118-125). -/
theorem objStep_of_badcorner (classes : List String) (w h : ℤ) (o : XmlObject) (cls : String)
    (bb : BndBox) (hn : o.name = some cls) (hb : o.bndbox = some bb)
    (hcorner : bb.xmin = none ∨ bb.xmax = none ∨ bb.ymin = none ∨ bb.ymax = none) :
    objStep classes w h o = ObjStep.skip := by
  by_cases hd : o.difficult = some 1
  · simp [objStep, hd]
  · by_cases hc : cls ∈ classes
    · rcases hcorner with hx | hx | hx | hx <;>
        simp only [objStep, hd, hn, hb, hc, hx, if_false, if_true, ite_false, ite_true] <;>
        first
          | rfl
          | (cases bb.xmin <;> simp)
    · simp [objStep, hd, hn, hc]

/-- Inversion: an emitted line comes from a retained object with a fully
numeric bounding box and nonzero image dimensions, and is exactly the line
the spec describes. -/
theorem objStep_emit_inv (classes : List String) (w h : ℤ) (o : XmlObject) (l : String)
    (hst : objStep classes w h o = ObjStep.emit l) :
    o.difficult ≠ some 1 ∧ ∃ cls, o.name = some cls ∧ classes.contains cls = true ∧
      ∃ bb, o.bndbox = some bb ∧ ∃ xmin xmax ymin ymax,
        bb.xmin = some xmin ∧ bb.xmax = some xmax ∧ bb.ymin = some ymin ∧ bb.ymax = some ymax ∧
        ¬(w = 0 ∨ h = 0) ∧
        l = specEmittedLine classes cls ( convert_coordinates (w, h) (xmin, xmax, ymin, ymax)) := by
  by_cases hd : o.difficult = some 1
  · simp [objStep, hd] at hst
  cases hn : o.name with
  | none => simp [objStep, hd, hn] at hst
  | some cls =>
    by_cases hc : cls ∈ classes
    · cases hb : o.bndbox with
      | none => simp [objStep, hd, hn, hc, hb] at hst
      | some bb =>
        cases hx1 : bb.xmin with
        | none => simp [objStep, hd, hn, hc, hb, hx1] at hst
        | some xmin =>
          cases hx2 : bb.xmax with
          | none => simp [objStep, hd, hn, hc, hb, hx1, hx2] at hst
          | some xmax =>
            cases hy1 : bb.ymin with
            | none => simp [objStep, hd, hn, hc, hb, hx1, hx2, hy1] at hst
            | some ymin =>
              cases hy2 : bb.ymax with
              | none => simp [objStep, hd, hn, hc, hb, hx1, hx2, hy1, hy2] at hst
              | some ymax =>
                by_cases hz : w = 0 ∨ h = 0
                · simp [objStep, hd, hn, hc, hb, hx1, hx2, hy1, hy2, hz] at hst
                · refine ⟨hd, cls, rfl, by simpa using hc, bb, rfl, xmin, xmax, ymin, ymax,
                    hx1, hx2, hy1, hy2, hz, ?_⟩
                  have hc2 : classes.contains cls = true := by simpa using hc
                  simp only [objStep, hd, hn, hc2, hb, hx1, hx2, hy1, hy2, hz,
                    if_false, if_true, ite_false, ite_true] at hst
                  have hst2 := hst
                  simp only [ObjStep.emit.injEq] at hst2
                  rw [← hst2]
                  simp [specEmittedLine, String.intercalate, String.intercalate.go,
                    String.append_assoc]
    · simp [objStep, hd, hn, hc] at hst

/-! ### Helper lemmas about the object loop -/

/-- A skipped object leaves the loop state unchanged. -/
theorem processObjects_cons_skip (classes : List String) (w h : ℤ) (o : XmlObject)
    (rest : List XmlObject) (hst : objStep classes w h o = ObjStep.skip) :
    processObjects classes w h (o :: rest) = processObjects classes w h rest := by
  simp [processObjects, hst]

/-- An aborting object stops the loop with no further lines. -/
theorem processObjects_cons_abort (classes : List String) (w h : ℤ) (o : XmlObject)
    (rest : List XmlObject) (hst : objStep classes w h o = ObjStep.abort) :
    processObjects classes w h (o :: rest) = (false, []) := by
  simp [processObjects, hst]

/-- An emitting object prepends its line to the rest of the loop. -/
theorem processObjects_cons_emit (classes : List String) (w h : ℤ) (o : XmlObject)
    (rest : List XmlObject) (line : String) (hst : objStep classes w h o = ObjStep.emit line) :
    processObjects classes w h (o :: rest) =
      ((processObjects classes w h rest).1, line :: (processObjects classes w h rest).2) := by
  simp [processObjects, hst]

/-- Splitting the loop at a list append: if the first half aborts the second
half is never reached; otherwise its lines precede the second half's. -/
theorem processObjects_append (classes : List String) (w h : ℤ) (l1 l2 : List XmlObject) :
    processObjects classes w h (l1 ++ l2) =
      if (processObjects classes w h l1).1
      then ((processObjects classes w h l2).1,
            (processObjects classes w h l1).2 ++ (processObjects classes w h l2).2)
      else processObjects classes w h l1 := by
  induction l1 with
  | nil => simp [processObjects]
  | cons o rest ih =>
    cases hst : objStep classes w h o with
    | skip =>
      rw [List.cons_append, processObjects_cons_skip classes w h o (rest ++ l2) hst,
        processObjects_cons_skip classes w h o rest hst, ih]
    | abort =>
      rw [List.cons_append, processObjects_cons_abort classes w h o (rest ++ l2) hst,
        processObjects_cons_abort classes w h o rest hst]
      simp
    | emit line =>
      rw [List.cons_append, processObjects_cons_emit classes w h o (rest ++ l2) line hst,
        processObjects_cons_emit classes w h o rest line hst, ih]
      by_cases hr : (processObjects classes w h rest).1 <;> simp [hr]

/-- Objects on which the step is a skip can be dropped from the list without
changing the loop's result. -/
theorem processObjects_filter (classes : List String) (w h : ℤ) (p : XmlObject → Bool)
    (hp : ∀ o : XmlObject, p o = false → objStep classes w h o = ObjStep.skip)
    (objs : List XmlObject) :
    processObjects classes w h (List.filter p objs) = processObjects classes w h objs := by
  induction objs with
  | nil => rfl
  | cons o rest ih =>
    cases hpo : p o with
    | true =>
      rw [List.filter_cons_of_pos hpo]
      simp only [processObjects]
      cases objStep classes w h o <;> simp [ih]
    | false =>
      rw [List.filter_cons_of_neg (by simp [hpo])]
      rw [processObjects_cons_skip classes w h o rest (hp o hpo)]
      exact ih

/-- If every object is skipped the loop succeeds with no lines. -/
theorem processObjects_all_skip (classes : List String) (w h : ℤ) (objs : List XmlObject)
    (hall : ∀ o ∈ objs, objStep classes w h o = ObjStep.skip) :
    processObjects classes w h objs = (true, []) := by
  induction objs with
  | nil => rfl
  | cons o rest ih =>
    rw [processObjects_cons_skip classes w h o rest (hall o (List.mem_cons_self o rest))]
    exact ih (fun o' ho' => hall o' (List.mem_cons_of_mem o ho'))

/-- With a zero dimension no step can emit a line: the division by zero
raises first. -/
theorem objStep_zero_ne_emit (classes : List String) (w h : ℤ) (o : XmlObject) (l : String)
    (hz : w = 0 ∨ h = 0) : objStep classes w h o ≠ ObjStep.emit l := by
  intro hst
  obtain ⟨-, -, -, -, -, -, -, -, -, -, -, -, -, -, hnz, -⟩ :=
    objStep_emit_inv classes w h o l hst
  exact hnz hz

/-- With a zero dimension an object that reaches the transform aborts the
file (Python `ZeroDivisionError` at line 49-50). -/
theorem objStep_zero_abort (classes : List String) (w h : ℤ) (o : XmlObject)
    (hr : reachesTransform classes o = true) (hz : w = 0 ∨ h = 0) :
    objStep classes w h o = ObjStep.abort := by
  unfold reachesTransform at hr
  rw [Bool.and_eq_true] at hr
  obtain ⟨hd, hrest⟩ := hr
  have hd' : o.difficult ≠ some 1 := by
    intro hcon
    simp [hcon] at hd
  cases hn : o.name with
  | none => simp [hn] at hrest
  | some cls =>
    rw [hn, Bool.and_eq_true] at hrest
    obtain ⟨hc, hbb⟩ := hrest
    cases hb : o.bndbox with
    | none => simp [hb] at hbb
    | some bb =>
      rw [hb] at hbb
      simp only [Bool.and_eq_true, Option.isSome_iff_exists] at hbb
      obtain ⟨⟨⟨⟨xmin, hx1⟩, ⟨xmax, hx2⟩⟩, ⟨ymin, hy1⟩⟩, ⟨ymax, hy2⟩⟩ := hbb
      have hc' : cls ∈ classes := by simpa using hc
      simp [objStep, hd', hn, hc', hb, hx1, hx2, hy1, hy2, hz]

/-- With a zero dimension the loop writes no lines at all. -/
theorem processObjects_zero_lines (classes : List String) (w h : ℤ) (objs : List XmlObject)
    (hz : w = 0 ∨ h = 0) : (processObjects classes w h objs).2 = [] := by
  induction objs with
  | nil => rfl
  | cons o rest ih =>
    simp only [processObjects]
    cases hst : objStep classes w h o with
    | skip => exact ih
    | abort => rfl
    | emit line => exact absurd hst (objStep_zero_ne_emit classes w h o line hz)

/-- With a zero dimension, if some object reaches the transform the loop
reports failure. -/
theorem processObjects_zero_false (classes : List String) (w h : ℤ) (objs : List XmlObject)
    (hz : w = 0 ∨ h = 0) (hex : ∃ o ∈ objs, reachesTransform classes o = true) :
    (processObjects classes w h objs).1 = false := by
  induction objs with
  | nil => simp at hex
  | cons o rest ih =>
    simp only [processObjects]
    cases hst : objStep classes w h o with
    | skip =>
      apply ih
      obtain ⟨o', ho', hr'⟩ := hex
      rcases List.mem_cons.mp ho' with rfl | hmem
      · exact absurd hst (by simp [objStep_zero_abort classes w h o' hr' hz])
      · exact ⟨o', hmem, hr'⟩
    | abort => rfl
    | emit line => exact absurd hst (objStep_zero_ne_emit classes w h o line hz)

/-! ### Evaluation helpers -/

/-- Floor of an integer-valued rational is that integer. -/
theorem ratFloor_intCast (n : ℤ) : ratFloor (n : ℚ) = n := by
  unfold ratFloor
  rw [Rat.num_intCast, Rat.den_intCast]
  simp

/-- Rounding an integer-valued rational returns that integer. -/
theorem roundHalfEven_intCast (n : ℤ) : roundHalfEven (n : ℚ) = n := by
  unfold roundHalfEven
  rw [ratFloor_intCast]
  norm_num

/-- Evaluate `fmt6` once the scaled value is known to be an integer. -/
theorem fmt6_eval (q : ℚ) (n : ℤ) (hq : q * 1000000 = (n : ℚ)) :
    fmt6 q = (if n < 0 then "-" else "") ++ toString (n.natAbs / 1000000) ++ "." ++
      padFrac (n.natAbs % 1000000) := by
  simp only [fmt6, hq, roundHalfEven_intCast]

/-- Counting with a fold, as `convert_all` does, is `List.countP`. -/
theorem foldl_count_eq {α : Type} (p : α → Bool) (l : List α) (n : ℕ) :
    List.foldl (fun acc f => if p f then acc + 1 else acc) n l = n + List.countP p l := by
  induction l generalizing n with
  | nil => simp
  | cons a l ih =>
    cases hpa : p a <;> simp [List.foldl, hpa, ih, List.countP_cons]
    omega

/-! ### Claim theorems -/

/-- Claim C1: for every image size `(w, h)` with `w` and `h` nonzero and
every box `(xmin, xmax, ymin, ymax)`, `convert_coordinates` returns exactly
`(((xmin+xmax)/2)/w, ((ymin+ymax)/2)/h, (xmax-xmin)/w, (ymax-ymin)/h)`, with
no clamping or validation of out-of-range corners; in particular for image
size `(100, 200)` and box `(10, 30, 50, 150)` it returns
`(0.2, 0.5, 0.2, 0.5)`. -/
theorem C1_convert_coordinates_formula :
    (∀ (w h : ℤ), w ≠ 0 → h ≠ 0 → ∀ (xmin xmax ymin ymax : ℚ),
      convert_coordinates (w, h) (xmin, xmax, ymin, ymax) =
        (((xmin + xmax) / 2) / (w : ℚ), ((ymin + ymax) / 2) / (h : ℚ),
          (xmax - xmin) / (w : ℚ), (ymax - ymin) / (h : ℚ))) ∧
    convert_coordinates (100, 200) (10, 30, 50, 150) = (0.2, 0.5, 0.2, 0.5) := by
  constructor
  · intro w h _ _ xmin xmax ymin ymax
    simp [ convert_coordinates, mul_one_div, div_eq_mul_inv]
  · norm_num [ convert_coordinates]

/-- Witness for C1 at image size `(100, 200)` and box `(10, 30, 50, 150)`. -/
theorem C1_witness :
    convert_coordinates (100, 200) (10, 30, 50, 150) =
      (((10 + 30) / 2) / ((100 : ℤ) : ℚ), ((50 + 150) / 2) / ((200 : ℤ) : ℚ),
        (30 - 10) / ((100 : ℤ) : ℚ), (150 - 50) / ((200 : ℤ) : ℚ)) :=
  C1_convert_coordinates_formula.1 100 200 (by norm_num) (by norm_num) 10 30 50 150

/-- Claim C2: for a well-formed box (`0 ≤ xmin ≤ xmax ≤ w`,
`0 ≤ ymin ≤ ymax ≤ h`, positive dimensions) all four outputs of
`convert_coordinates` lie in `[0, 1]`. -/
theorem C2_outputs_in_unit_interval (w h : ℤ) (xmin xmax ymin ymax : ℚ)
    (hw : 0 < w) (hh : 0 < h)
    (hx0 : 0 ≤ xmin) (hx1 : xmin ≤ xmax) (hx2 : xmax ≤ (w : ℚ))
    (hy0 : 0 ≤ ymin) (hy1 : ymin ≤ ymax) (hy2 : ymax ≤ (h : ℚ)) :
    (0 ≤ (convert_coordinates (w, h) (xmin, xmax, ymin, ymax)).1 ∧
      (convert_coordinates (w, h) (xmin, xmax, ymin, ymax)).1 ≤ 1) ∧
    (0 ≤ (convert_coordinates (w, h) (xmin, xmax, ymin, ymax)).2.1 ∧
      (convert_coordinates (w, h) (xmin, xmax, ymin, ymax)).2.1 ≤ 1) ∧
    (0 ≤ (convert_coordinates (w, h) (xmin, xmax, ymin, ymax)).2.2.1 ∧
      (convert_coordinates (w, h) (xmin, xmax, ymin, ymax)).2.2.1 ≤ 1) ∧
    (0 ≤ (convert_coordinates (w, h) (xmin, xmax, ymin, ymax)).2.2.2 ∧
      (convert_coordinates (w, h) (xmin, xmax, ymin, ymax)).2.2.2 ≤ 1) := by
  have hw' : (0 : ℚ) < (w : ℚ) := by exact_mod_cast hw
  have hh' : (0 : ℚ) < (h : ℚ) := by exact_mod_cast hh
  simp only [ convert_coordinates, mul_one_div]
  refine ⟨⟨?_, ?_⟩, ⟨?_, ?_⟩, ⟨?_, ?_⟩, ?_, ?_⟩
  · apply div_nonneg _ (le_of_lt hw')
    linarith
  · rw [div_le_one hw']
    linarith
  · apply div_nonneg _ (le_of_lt hh')
    linarith
  · rw [div_le_one hh']
    linarith
  · apply div_nonneg _ (le_of_lt hw')
    linarith
  · rw [div_le_one hw']
    linarith
  · apply div_nonneg _ (le_of_lt hh')
    linarith
  · rw [div_le_one hh']
    linarith

/-- Witness for C2 at image size `(100, 200)` and box `(10, 30, 50, 150)`. -/
theorem C2_witness :
    (0 ≤ (convert_coordinates (100, 200) (10, 30, 50, 150)).1 ∧
      (convert_coordinates (100, 200) (10, 30, 50, 150)).1 ≤ 1) ∧
    (0 ≤ (convert_coordinates (100, 200) (10, 30, 50, 150)).2.1 ∧
      (convert_coordinates (100, 200) (10, 30, 50, 150)).2.1 ≤ 1) ∧
    (0 ≤ (convert_coordinates (100, 200) (10, 30, 50, 150)).2.2.1 ∧
      (convert_coordinates (100, 200) (10, 30, 50, 150)).2.2.1 ≤ 1) ∧
    (0 ≤ (convert_coordinates (100, 200) (10, 30, 50, 150)).2.2.2 ∧
      (convert_coordinates (100, 200) (10, 30, 50, 150)).2.2.2 ≤ 1) :=
  C2_outputs_in_unit_interval 100 200 10 30 50 150 (by norm_num) (by norm_num)
    (by norm_num) (by norm_num) (by norm_num) (by norm_num) (by norm_num) (by norm_num)

/-- Claim C9: mapping the output of `convert_coordinates` back through
`xmin = (x - w_n/2)*w`, `xmax = (x + w_n/2)*w`, `ymin = (y - h_n/2)*h`,
`ymax = (y + h_n/2)*h` reproduces the original corners exactly (over exact
arithmetic), for positive dimensions. -/
theorem C9_round_trip (w h : ℤ) (hw : 0 < w) (hh : 0 < h) (xmin xmax ymin ymax : ℚ) :
    ((convert_coordinates (w, h) (xmin, xmax, ymin, ymax)).1 -
        (convert_coordinates (w, h) (xmin, xmax, ymin, ymax)).2.2.1 / 2) * (w : ℚ) = xmin ∧
    ((convert_coordinates (w, h) (xmin, xmax, ymin, ymax)).1 +
        (convert_coordinates (w, h) (xmin, xmax, ymin, ymax)).2.2.1 / 2) * (w : ℚ) = xmax ∧
    ((convert_coordinates (w, h) (xmin, xmax, ymin, ymax)).2.1 -
        (convert_coordinates (w, h) (xmin, xmax, ymin, ymax)).2.2.2 / 2) * (h : ℚ) = ymin ∧
    ((convert_coordinates (w, h) (xmin, xmax, ymin, ymax)).2.1 +
        (convert_coordinates (w, h) (xmin, xmax, ymin, ymax)).2.2.2 / 2) * (h : ℚ) = ymax := by
  have hw' : ((w : ℚ)) ≠ 0 := by
    exact_mod_cast ne_of_gt hw
  have hh' : ((h : ℚ)) ≠ 0 := by
    exact_mod_cast ne_of_gt hh
  simp only [ convert_coordinates, mul_one_div]
  refine ⟨?_, ?_, ?_, ?_⟩ <;> field_simp <;> ring

/-- Witness for C9 at image size `(100, 200)` and box `(10, 30, 50, 150)`. -/
theorem C9_witness :
    ((convert_coordinates (100, 200) (10, 30, 50, 150)).1 -
        (convert_coordinates (100, 200) (10, 30, 50, 150)).2.2.1 / 2) * ((100 : ℤ) : ℚ) = 10 ∧
    ((convert_coordinates (100, 200) (10, 30, 50, 150)).1 +
        (convert_coordinates (100, 200) (10, 30, 50, 150)).2.2.1 / 2) * ((100 : ℤ) : ℚ) = 30 ∧
    ((convert_coordinates (100, 200) (10, 30, 50, 150)).2.1 -
        (convert_coordinates (100, 200) (10, 30, 50, 150)).2.2.2 / 2) * ((200 : ℤ) : ℚ) = 50 ∧
    ((convert_coordinates (100, 200) (10, 30, 50, 150)).2.1 +
        (convert_coordinates (100, 200) (10, 30, 50, 150)).2.2.2 / 2) * ((200 : ℤ) : ℚ) = 150 :=
  C9_round_trip 100 200 (by norm_num) (by norm_num) 10 30 50 150

/-- Claim C3: every line the object loop emits is exactly
`specEmittedLine`: the class identifier — the index of the object's class
name in the ordered class list — followed by the four transformed values
each formatted to 6 decimal places, space-separated and newline-terminated;
and each line comes from a retained object of the list. -/
theorem C3_emitted_line_format (classes : List String) (w h : ℤ) (objs : List XmlObject)
    (l : String) (hl : l ∈ (processObjects classes w h objs).2) :
    ∃ o ∈ objs, o.difficult ≠ some 1 ∧ ∃ cls, o.name = some cls ∧
      classes.contains cls = true ∧ ∃ bb, o.bndbox = some bb ∧
      ∃ xmin xmax ymin ymax,
        bb.xmin = some xmin ∧ bb.xmax = some xmax ∧ bb.ymin = some ymin ∧ bb.ymax = some ymax ∧
        l = specEmittedLine classes cls ( convert_coordinates (w, h) (xmin, xmax, ymin, ymax)) := by
  induction objs with
  | nil => simp [processObjects] at hl
  | cons o rest ih =>
    cases hst : objStep classes w h o with
    | skip =>
      rw [processObjects_cons_skip classes w h o rest hst] at hl
      obtain ⟨o', ho', hrest⟩ := ih hl
      exact ⟨o', List.mem_cons_of_mem o ho', hrest⟩
    | abort =>
      rw [processObjects_cons_abort classes w h o rest hst] at hl
      simp at hl
    | emit line =>
      rw [processObjects_cons_emit classes w h o rest line hst] at hl
      rcases List.mem_cons.mp hl with rfl | hmem
      · obtain ⟨hd, cls, hn, hc, bb, hb, xmin, xmax, ymin, ymax, hx1, hx2, hy1, hy2, -, hline⟩ :=
          objStep_emit_inv classes w h o l hst
        exact ⟨o, List.mem_cons_self o rest, hd, cls, hn, hc, bb, hb,
          xmin, xmax, ymin, ymax, hx1, hx2, hy1, hy2, hline⟩
      · obtain ⟨o', ho', hrest⟩ := ih hmem
        exact ⟨o', List.mem_cons_of_mem o ho', hrest⟩

/-- Claim C5: an object with the difficulty flag set to 1 is invisible to the
conversion: filtering all such objects out of an annotation changes neither
the success result nor the output file. -/
theorem C5_difficult_never_emitted (classes : List String) (nm : String) (a : Annotation) :
    convert_annotation classes (nm, some a) =
      convert_annotation classes
        (nm, some ⟨a.size, List.filter (fun o => !(o.difficult == some 1)) a.objects⟩) := by
  obtain ⟨sz, objs⟩ := a
  cases sz with
  | none => rfl
  | some s =>
    obtain ⟨ow, oh⟩ := s
    cases ow with
    | none => rfl
    | some w =>
      cases oh with
      | none => rfl
      | some h =>
        have hp : ∀ o : XmlObject, (!(o.difficult == some 1)) = false →
            objStep classes w h o = ObjStep.skip := by
          intro o ho
          have hd : o.difficult = some 1 := by
            have hb : (o.difficult == some 1) = true := by
              cases hbe : o.difficult == some 1 with
              | true => rfl
              | false => rw [hbe] at ho; simp at ho
            exact eq_of_beq hb
          exact objStep_of_difficult classes w h o hd
        simp only [ convert_annotation]
        rw [processObjects_filter classes w h _ hp objs]

/-- Claim C6: an object whose class name is not in the configured class list
is invisible to the conversion: filtering all such objects out changes
neither the success result nor the output file — in particular its presence
never causes file-level failure. -/
theorem C6_unknown_class_skipped (classes : List String) (nm : String) (a : Annotation) :
    convert_annotation classes (nm, some a) =
      convert_annotation classes
        (nm, some ⟨a.size, List.filter
          (fun o => match o.name with
            | none => true
            | some cls => classes.contains cls) a.objects⟩) := by
  obtain ⟨sz, objs⟩ := a
  cases sz with
  | none => rfl
  | some s =>
    obtain ⟨ow, oh⟩ := s
    cases ow with
    | none => rfl
    | some w =>
      cases oh with
      | none => rfl
      | some h =>
        have hp : ∀ o : XmlObject, (match o.name with
              | none => true
              | some cls => classes.contains cls) = false →
            objStep classes w h o = ObjStep.skip := by
          intro o ho
          cases hn : o.name with
          | none => rw [hn] at ho; simp at ho
          | some cls =>
            rw [hn] at ho
            exact objStep_of_unknown_class classes w h o cls hn ho
        simp only [ convert_annotation]
        rw [processObjects_filter classes w h _ hp objs]

/-- Witness for C3: the single retained object of a one-object annotation at
image size `(100, 200)` produces the line
`"0 0.200000 0.500000 0.200000 0.500000\n"`. -/
theorem C3_witness :
    ∃ o ∈ [(⟨none, some "cat", some ⟨some 10, some 30, some 50, some 150⟩⟩ : XmlObject)],
      o.difficult ≠ some 1 ∧ ∃ cls, o.name = some cls ∧
      (["cat"] : List String).contains cls = true ∧ ∃ bb, o.bndbox = some bb ∧
      ∃ xmin xmax ymin ymax,
        bb.xmin = some xmin ∧ bb.xmax = some xmax ∧ bb.ymin = some ymin ∧ bb.ymax = some ymax ∧
        "0 0.200000 0.500000 0.200000 0.500000\n" =
          specEmittedLine ["cat"] cls
            ( convert_coordinates (100, 200) (xmin, xmax, ymin, ymax)) := by
  apply C3_emitted_line_format ["cat"] 100 200
    [(⟨none, some "cat", some ⟨some 10, some 30, some 50, some 150⟩⟩ : XmlObject)]
  have hcc : convert_coordinates (100, 200) (10, 30, 50, 150) =
      ((1 : ℚ)/5, (1 : ℚ)/2, (1 : ℚ)/5, (1 : ℚ)/2) := by
    norm_num [ convert_coordinates]
  have e1 : fmt6 ((1 : ℚ)/5) = "0.200000" := by
    rw [fmt6_eval ((1 : ℚ)/5) 200000 (by norm_num)]
    decide
  have e2 : fmt6 ((1 : ℚ)/2) = "0.500000" := by
    rw [fmt6_eval ((1 : ℚ)/2) 500000 (by norm_num)]
    decide
  have hstep : objStep ["cat"] 100 200
      (⟨none, some "cat", some ⟨some 10, some 30, some 50, some 150⟩⟩ : XmlObject) =
      ObjStep.emit "0 0.200000 0.500000 0.200000 0.500000\n" := by
    simp only [objStep, hcc, List.map_cons, List.map_nil, e1, e2]
    decide
  rw [processObjects_cons_emit ["cat"] 100 200 _ []
    "0 0.200000 0.500000 0.200000 0.500000\n" hstep]
  simp [processObjects]

/-- Claim C4: a batch over an empty file list returns `(0, 0)` and creates no
output files; in general `convert_all` processes every file, never aborts,
and returns the number of files whose conversion succeeded together with the
total number of files. -/
theorem C4_batch_tally (classes : List String) (xml_files : List (String × Option Annotation)) :
    (xml_files = [] → convert_all classes xml_files = (0, 0) ∧
      convert_all_outputs classes xml_files = []) ∧
    convert_all classes xml_files =
      (List.countP (fun f => ( convert_annotation classes f).1) xml_files, xml_files.length) := by
  constructor
  · rintro rfl
    exact ⟨rfl, rfl⟩
  · by_cases hl : xml_files.length = 0
    · have hnil : xml_files = [] := List.length_eq_zero.mp hl
      subst hnil
      rfl
    · simp only [ convert_all, hl, if_false, ite_false]
      rw [foldl_count_eq]
      simp

/-- Witness for C4: the empty batch. -/
theorem C4_witness :
    convert_all ["battery"] [] = (0, 0) ∧ convert_all_outputs ["battery"] [] = [] :=
  (C4_batch_tally ["battery"] []).1 rfl

/-- Counterexample to claim C7 as stated: an annotation whose size record has
`width = 0` but which contains no objects converts *successfully* (the
division by zero is never reached), so a zero dimension does not always make
`convert_annotation` return failure. -/
theorem C7_counterexample :
    ( convert_annotation ["battery"] ("f.xml", some ⟨some ⟨some 0, some 10⟩, []⟩)).1 = true := by
  decide

/-- Claim C7 (amended): a missing (unparsable) width or height makes the
conversion fail; a zero width or height makes it fail as soon as any object
reaches the coordinate transform, and in that situation no normalized values
are ever written (the output file stays empty) — the division by zero raises
before any line is produced.  (A zero-dimension file with no object reaching
the transform returns success, see the counterexample.) -/
theorem C7_zero_dimension_guard (classes : List String) (nm : String) (a : Annotation) :
    (∀ s : SizeRec, a.size = some s → s.width = none ∨ s.height = none →
      ( convert_annotation classes (nm, some a)).1 = false) ∧
    (∀ w h : ℤ, a.size = some ⟨some w, some h⟩ → w = 0 ∨ h = 0 →
      ((∃ o ∈ a.objects, reachesTransform classes o = true) →
        ( convert_annotation classes (nm, some a)).1 = false) ∧
      ( convert_annotation classes (nm, some a)).2 =
        some (nm.dropRight 4 ++ ".txt", [])) := by
  constructor
  · rintro ⟨ow, oh⟩ hs hmiss
    rcases hmiss with hw | hh
    · subst hw
      simp [ convert_annotation, hs]
    · subst hh
      cases ow <;> simp [ convert_annotation, hs]
  · intro w h hs hz
    constructor
    · intro hex
      simp only [ convert_annotation, hs]
      exact processObjects_zero_false classes w h a.objects hz hex
    · simp only [ convert_annotation, hs]
      rw [processObjects_zero_lines classes w h a.objects hz]

/-- Witness for C7 (amended): a file whose size record lacks a width fails,
and a zero-width file with one transform-reaching object fails with an empty
output file. -/
theorem C7_witness :
    ( convert_annotation ["cat"] ("g.xml", some ⟨some ⟨none, some 5⟩, []⟩)).1 = false ∧
    ( convert_annotation ["cat"] ("g.xml", some ⟨some ⟨some 0, some 5⟩,
        [⟨none, some "cat", some ⟨some 1, some 2, some 1, some 2⟩⟩]⟩)).1 = false ∧
    ( convert_annotation ["cat"] ("g.xml", some ⟨some ⟨some 0, some 5⟩,
        [⟨none, some "cat", some ⟨some 1, some 2, some 1, some 2⟩⟩]⟩)).2 =
      some ("g.txt", []) := by
  refine ⟨(C7_zero_dimension_guard ["cat"] "g.xml" ⟨some ⟨none, some 5⟩, []⟩).1
    ⟨none, some 5⟩ rfl (Or.inl rfl), ?_, ?_⟩
  · exact ((C7_zero_dimension_guard ["cat"] "g.xml" _).2 0 5 rfl (Or.inl rfl)).1
      ⟨⟨none, some "cat", some ⟨some 1, some 2, some 1, some 2⟩⟩, by decide, by decide⟩
  · exact ((C7_zero_dimension_guard ["cat"] "g.xml" _).2 0 5 rfl (Or.inl rfl)).2

/-- Counterexample to claim C8 as stated: an annotation that parses but has
no size record fails conversion, yet an (empty) output file *is* created —
the Python opens the output file before looking for the size record. -/
theorem C8_counterexample :
    convert_annotation ["battery"] ("h.xml", some ⟨none, []⟩) =
      (false, some ("h.txt", [])) := by
  decide

/-- Claim C8 (amended): an output file (named after the input file's stem
with a `.txt` extension) is created exactly for each input that parses as
well-formed XML — not only for successfully converted files: a parsed file
with a missing size record is counted as a failure but still leaves an empty
output file.  A successful file whose objects are all skipped produces an
empty output file. -/
theorem C8_output_file_exactly_for_parsed (classes : List String) (nm : String)
    (fo : Option Annotation) :
    (( convert_annotation classes (nm, fo)).2.isSome ↔ fo.isSome) ∧
    (∀ out : String × List String, ( convert_annotation classes (nm, fo)).2 = some out →
      out.1 = nm.dropRight 4 ++ ".txt") ∧
    (∀ a : Annotation, fo = some a → a.size = none →
      convert_annotation classes (nm, fo) = (false, some (nm.dropRight 4 ++ ".txt", []))) ∧
    (∀ (a : Annotation) (w h : ℤ), fo = some a → a.size = some ⟨some w, some h⟩ →
      (∀ o ∈ a.objects, objStep classes w h o = ObjStep.skip) →
      convert_annotation classes (nm, fo) = (true, some (nm.dropRight 4 ++ ".txt", []))) := by
  refine ⟨?_, ?_, ?_, ?_⟩
  · cases fo with
    | none => simp [ convert_annotation]
    | some a =>
      rcases a with ⟨sz, objs⟩
      cases sz with
      | none => simp [ convert_annotation]
      | some s =>
        rcases s with ⟨ow, oh⟩
        cases ow <;> cases oh <;> simp [ convert_annotation]
  · intro out hout
    cases fo with
    | none => simp [ convert_annotation] at hout
    | some a =>
      rcases a with ⟨sz, objs⟩
      cases sz with
      | none =>
        simp only [ convert_annotation] at hout
        rw [← Option.some_inj.mp hout]
      | some s =>
        rcases s with ⟨ow, oh⟩
        cases ow <;> cases oh <;>
          simp only [ convert_annotation] at hout <;>
          rw [← Option.some_inj.mp hout]
  · rintro a rfl hs
    simp [ convert_annotation, hs]
  · rintro a w h rfl hs hall
    simp only [ convert_annotation, hs]
    rw [processObjects_all_skip classes w h a.objects hall]

/-- Witness for C8 (amended): a parsed file with a size record and no
objects succeeds with an empty output file named after its stem. -/
theorem C8_witness :
    convert_annotation ["battery"] ("img_001.xml", some ⟨some ⟨some 10, some 20⟩, []⟩) =
      (true, some ("img_001.txt", [])) :=
  (C8_output_file_exactly_for_parsed ["battery"] "img_001.xml"
      (some ⟨some ⟨some 10, some 20⟩, []⟩)).2.2.2
    ⟨some ⟨some 10, some 20⟩, []⟩ 10 20 rfl rfl (by simp)

/-- Claim C10: an object with no `name` sub-record makes the whole file fail
(the exception escapes to the outer handler), while lines written for objects
before it persist in the output file; by contrast a missing `bndbox`
sub-record or a missing/non-numeric corner coordinate skips only that one
object. -/
theorem C10_missing_name_aborts_file (classes : List String) (nm : String) (o : XmlObject) :
    (∀ (w h : ℤ) (pre rest : List XmlObject), o.difficult ≠ some 1 → o.name = none →
      (processObjects classes w h pre).1 = true →
      processObjects classes w h (pre ++ o :: rest) =
        (false, (processObjects classes w h pre).2)) ∧
    (∀ (a : Annotation) (w h : ℤ) (pre rest : List XmlObject),
      a.size = some ⟨some w, some h⟩ → a.objects = pre ++ o :: rest →
      o.difficult ≠ some 1 → o.name = none →
      (processObjects classes w h pre).1 = true →
      convert_annotation classes (nm, some a) =
        (false, some (nm.dropRight 4 ++ ".txt", (processObjects classes w h pre).2))) ∧
    (∀ (w h : ℤ) (rest : List XmlObject) (cls : String), o.difficult ≠ some 1 →
      o.name = some cls → o.bndbox = none →
      processObjects classes w h (o :: rest) = processObjects classes w h rest) ∧
    (∀ (w h : ℤ) (rest : List XmlObject) (cls : String) (bb : BndBox), o.difficult ≠ some 1 →
      o.name = some cls → o.bndbox = some bb →
      (bb.xmin = none ∨ bb.xmax = none ∨ bb.ymin = none ∨ bb.ymax = none) →
      processObjects classes w h (o :: rest) = processObjects classes w h rest) := by
  have habort : ∀ (w h : ℤ) (pre rest : List XmlObject), o.difficult ≠ some 1 → o.name = none →
      (processObjects classes w h pre).1 = true →
      processObjects classes w h (pre ++ o :: rest) =
        (false, (processObjects classes w h pre).2) := by
    intro w h pre rest hd hn hpre
    rw [processObjects_append classes w h pre (o :: rest),
      processObjects_cons_abort classes w h o rest (objStep_of_noname classes w h o hd hn), hpre]
    simp
  refine ⟨habort, ?_, ?_, ?_⟩
  · intro a w h pre rest hs hobj hd hn hpre
    simp only [ convert_annotation, hs, hobj]
    rw [habort w h pre rest hd hn hpre]
  · intro w h rest cls hd hn hb
    exact processObjects_cons_skip classes w h o rest (objStep_of_nobox classes w h o cls hn hb)
  · intro w h rest cls bb hd hn hb hc
    exact processObjects_cons_skip classes w h o rest
      (objStep_of_badcorner classes w h o cls bb hn hb hc)

/-- Witness for C10: a lone object with no name tag aborts the loop. -/
theorem C10_witness :
    processObjects ["battery"] 3 4 ([] ++ (⟨none, none, none⟩ : XmlObject) :: []) =
      (false, (processObjects ["battery"] 3 4 []).2) :=
  (C10_missing_name_aborts_file ["battery"] "x.xml" ⟨none, none, none⟩).1 3 4 [] []
    (by decide) rfl rfl
